import Mathlib

/-!
Package golang-kmod: handle lifecycle over an instrumented module subsystem.

A shallow embedding of `kmod/kmod.go` and `kmod/module.go`.

* A C pointer (`*C.struct_kmod_ctx`, `*C.struct_kmod_module`) is an `Option Nat`;
  `none` is `nil`.
* A `*C.struct_kmod_list` is the finite chain of entries that starts at the node it
  points to, each entry carrying its payload; `[]` is `nil`, and `kmod_list_next`
  moves to the tail.
* Every cgo call is appended, arguments and returned values included, to a call log
  that is threaded through the functions.  What the subsystem answers is given by a
  `Subsystem` record whose answers may depend on the whole log so far.
* A Go panic is `Except.error` carrying the panic text; the log is kept.
* The cgo conversions `C.CString`, `C.free` and `C.GoString` are not calls into the
  subsystem and are not logged.
* `runtime.SetFinalizer` registers the `cleanup` methods; they are embedded as
  ordinary functions and the theorems say what one or several runs do.
-/

namespace kmod

/-- A C pointer; `none` is `nil`. -/
abbrev Ptr := Option Nat

/-- The three kinds of `*C.struct_kmod_list` the package walks. -/
inductive KmodList where
  | modules (l : List Ptr)
  | infos (l : List (String × String))
  | versions (l : List (String × Nat))
  deriving DecidableEq, Repr

/-- One cgo call, with its arguments and (where the Go code reads them) the values it
returned through its result or its out-parameter. -/
inductive Call where
  | kmod_new (ret : Ptr)
  | kmod_load_resources (ctx : Ptr) (ret : Int)
  | kmod_unload_resources (ctx : Ptr)
  | kmod_unref (ctx : Ptr)
  | kmod_module_new_from_loaded (ctx : Ptr) (ret : Int) (list : List Ptr)
  | kmod_module_new_from_lookup (ctx : Ptr) (aliasName : String) (ret : Int) (list : List Ptr)
  | kmod_module_new_from_name (ctx : Ptr) (name : String) (ret : Int) (module : Ptr)
  | kmod_list_next (list curr : KmodList)
  | kmod_module_get_module (entry : List Ptr)
  | kmod_module_ref (mod : Ptr)
  | kmod_module_unref (mod : Ptr)
  | kmod_module_unref_list (list : List Ptr)
  | kmod_module_get_name (mod : Ptr) (ret : String)
  | kmod_module_get_info (mod : Ptr) (ret : Int) (list : List (String × String))
  | kmod_module_info_get_key (entry : List (String × String))
  | kmod_module_info_get_value (entry : List (String × String))
  | kmod_module_info_free_list (list : List (String × String))
  | kmod_module_get_versions (mod : Ptr) (ret : Int) (list : List (String × Nat))
  | kmod_module_version_get_symbol (entry : List (String × Nat))
  | kmod_module_version_get_crc (entry : List (String × Nat))
  | kmod_module_versions_free_list (list : List (String × Nat))
  | kmod_module_probe_insert_module (mod : Ptr) (ret : Int)
  | kmod_module_remove_module (mod : Ptr) (ret : Int)
  | strerror (errnum : Int) (ret : String)
  deriving DecidableEq, Repr

/-- The call log of the instrumented subsystem, oldest call first. -/
abbrev Log := List Call

/-- What the module subsystem answers.  Each answer may depend on every call made so
far.  For a call with an out-parameter the second component is the value the
out-parameter holds after the call. -/
structure Subsystem where
  kmod_new : Log → Ptr
  kmod_load_resources : Log → Ptr → Int
  kmod_module_new_from_loaded : Log → Ptr → Int × List Ptr
  kmod_module_new_from_lookup : Log → Ptr → String → Int × List Ptr
  kmod_module_new_from_name : Log → Ptr → String → Int × Ptr
  kmod_module_get_name : Log → Ptr → String
  kmod_module_get_info : Log → Ptr → Int × List (String × String)
  kmod_module_get_versions : Log → Ptr → Int × List (String × Nat)
  kmod_module_probe_insert_module : Log → Ptr → Int
  kmod_module_remove_module : Log → Ptr → Int
  strerror : Log → Int → String

/-- Unary minus on a `C.int` (32-bit two's complement). -/
def negCInt (err : Int) : Int :=
  (-err + 2147483648) % 4294967296 - 2147483648

/-- Go `goStrerror`: the message of an error number. -/
def goStrerror (sub : Subsystem) (err : Int) (log : Log) : String × Log :=
  let msg := sub.strerror log err
  (msg, log ++ [Call.strerror err msg])

/-- Go `Kmod` wraps a `kmod_ctx`. -/
structure Kmod where
  ctx : Ptr
  deriving DecidableEq, Repr

/-- Go `Module` wraps a module from kmod. -/
structure Module where
  mod : Ptr
  deriving DecidableEq, Repr

/-- Go `ModuleList` wraps a `kmod_list` structure. -/
structure ModuleList where
  kmodList : List Ptr
  modules : List Module
  deriving DecidableEq, Repr

/-- Go `Version`: an individual entry in `__versions`. -/
structure Version where
  symbol : String
  crc : Nat
  deriving DecidableEq, Repr

/-- A Go `map[string]string`, seen through its lookups. -/
abbrev GoMap := String → Option String

/-- The assignment `m[key] = value`. -/
def GoMap.set (m : GoMap) (key value : String) : GoMap :=
  fun k => if k = key then some value else m k

/-- Go `NewKmod`: create the context and load its resources. -/
def NewKmod (sub : Subsystem) (log : Log) : Except String Kmod × Log :=
  let ctx := sub.kmod_new log
  let log1 := log ++ [Call.kmod_new ctx]
  if ctx = none then
    (Except.error "Kmod: unable to create the kmod_ctx, leaving now", log1)
  else
    let err := sub.kmod_load_resources log1 ctx
    let log2 := log1 ++ [Call.kmod_load_resources ctx err]
    if err < 0 then
      let r := goStrerror sub (negCInt err) log2
      (Except.error ("Kmod: unable to prepare the kmod_ctx, leaving now - " ++ r.1), r.2)
    else
      (Except.ok (Kmod.mk ctx), log2)

/-- Method `(*Kmod).cleanup`: cleanup the kmod context.  Returns the receiver as the run
leaves it. -/
def Kmod.cleanup (km : Kmod) (log : Log) : Kmod × Log :=
  if km.ctx ≠ none then
    let log1 := log ++ [Call.kmod_unload_resources km.ctx]
    let log2 := log1 ++ [Call.kmod_unref km.ctx]
    (Kmod.mk none, log2)
  else
    (km, log)

/-- Go `newModule`: wrap a kmod module. -/
def newModule (mod : Ptr) : Module :=
  Module.mk mod

/-- Method `(*Module).cleanup`: unref the module.  Returns the receiver as the run leaves
it. -/
def Module.cleanup (m : Module) (log : Log) : Module × Log :=
  if m.mod ≠ none then
    (m, log ++ [Call.kmod_module_unref m.mod])
  else
    (m, log)

/-- Method `(*Module).Name`. -/
def Module.Name (sub : Subsystem) (m : Module) (log : Log) : String × Log :=
  let name := sub.kmod_module_get_name log m.mod
  (name, log ++ [Call.kmod_module_get_name m.mod name])

/-- The loop of `newModuleList`: `listCurr` is the second argument. -/
def newModuleList.loop (list : List Ptr) :
    List Ptr → ModuleList → Log → ModuleList × Log
  | [], modList, log => (modList, log)
  | e :: rest, modList, log =>
    let log1 := log ++ [Call.kmod_module_get_module (e :: rest)]
    let modCurr := newModule e
    let log2 := log1 ++ [Call.kmod_module_ref modCurr.mod]
    let modList1 := ModuleList.mk modList.kmodList (modList.modules ++ [modCurr])
    let log3 := log2 ++ [Call.kmod_list_next (KmodList.modules list) (KmodList.modules (e :: rest))]
    newModuleList.loop list rest modList1 log3

/-- Go `newModuleList`: create a module list and populate it with modules. -/
def newModuleList (list : List Ptr) (log : Log) : ModuleList × Log :=
  newModuleList.loop list list (ModuleList.mk list []) log

/-- Method `(*ModuleList).cleanup`.  Returns the receiver as the run leaves it. -/
def ModuleList.cleanup (modList : ModuleList) (log : Log) : ModuleList × Log :=
  if modList.kmodList ≠ [] then
    (modList, log ++ [Call.kmod_module_unref_list modList.kmodList])
  else
    (modList, log)

/-- Method `(*Kmod).Lookup`: all modules matching `aliasName`. -/
def Kmod.Lookup (sub : Subsystem) (km : Kmod) (aliasName : String) (log : Log) :
    Except String (List Module) × Log :=
  let r := sub.kmod_module_new_from_lookup log km.ctx aliasName
  let err := r.1
  let list := r.2
  let log1 := log ++ [Call.kmod_module_new_from_lookup km.ctx aliasName err list]
  if err < 0 then
    let s := goStrerror sub (negCInt err) log1
    (Except.error ("Kmod : Failed to lookup " ++ aliasName ++ " - " ++ s.1), s.2)
  else
    let ml := newModuleList list log1
    (Except.ok ml.1.modules, ml.2)

/-- Method `(*Kmod).ModuleFromName`: a module handle from its name. -/
def Kmod.ModuleFromName (sub : Subsystem) (km : Kmod) (name : String) (log : Log) :
    Except String Module × Log :=
  let r := sub.kmod_module_new_from_name log km.ctx name
  let err := r.1
  let module := r.2
  let log1 := log ++ [Call.kmod_module_new_from_name km.ctx name err module]
  if err < 0 then
    let s := goStrerror sub (negCInt err) log1
    (Except.error ("Kmod : Could not get module " ++ name ++ " - " ++ s.1), s.2)
  else
    (Except.ok (newModule module), log1)

/-- The loop of `Insert` over the looked-up modules. -/
def Kmod.Insert.loop (sub : Subsystem) : List Module → Log → Except String Unit × Log
  | [], log => (Except.ok (), log)
  | module :: rest, log =>
    let err := sub.kmod_module_probe_insert_module log module.mod
    let log1 := log ++ [Call.kmod_module_probe_insert_module module.mod err]
    if err < 0 then
      let n := Module.Name sub module log1
      let s := goStrerror sub (negCInt err) n.2
      (Except.error ("Could not insert module " ++ n.1 ++ " : " ++ s.1), s.2)
    else
      Kmod.Insert.loop sub rest log1

/-- Method `(*Kmod).Insert`: insert a module in the tree with its name. -/
def Kmod.Insert (sub : Subsystem) (km : Kmod) (name : String) (log : Log) :
    Except String Unit × Log :=
  match Kmod.Lookup sub km name log with
  | (Except.error msg, log1) => (Except.error msg, log1)
  | (Except.ok modules, log1) => Kmod.Insert.loop sub modules log1

/-- The loop of `Remove` over the looked-up modules. -/
def Kmod.Remove.loop (sub : Subsystem) : List Module → Log → Except String Unit × Log
  | [], log => (Except.ok (), log)
  | module :: rest, log =>
    let err := sub.kmod_module_remove_module log module.mod
    let log1 := log ++ [Call.kmod_module_remove_module module.mod err]
    if err < 0 then
      let n := Module.Name sub module log1
      let s := goStrerror sub (negCInt err) n.2
      (Except.error ("Could not remove module " ++ n.1 ++ " : " ++ s.1), s.2)
    else
      Kmod.Remove.loop sub rest log1

/-- Method `(*Kmod).Remove`: remove a module from the current tree using its name. -/
def Kmod.Remove (sub : Subsystem) (km : Kmod) (name : String) (log : Log) :
    Except String Unit × Log :=
  match Kmod.Lookup sub km name log with
  | (Except.error msg, log1) => (Except.error msg, log1)
  | (Except.ok modules, log1) => Kmod.Remove.loop sub modules log1

/-- Method `(*Kmod).List`: all loaded modules.  (Placed after its siblings so that `List`
still names the list type in their signatures.) -/
def Kmod.List (sub : Subsystem) (km : Kmod) (log : Log) : Except String (List Module) × Log :=
  let r := sub.kmod_module_new_from_loaded log km.ctx
  let err := r.1
  let list := r.2
  let log1 := log ++ [Call.kmod_module_new_from_loaded km.ctx err list]
  if err < 0 then
    let s := goStrerror sub (negCInt err) log1
    (Except.error ("Kmod: couldn't get the list of modules: " ++ s.1 ++ "\n"), s.2)
  else
    let ml := newModuleList list log1
    (Except.ok ml.1.modules, ml.2)

/-- The loop of `Info`: `listCurr` is the second argument. -/
def Module.Info.loop (list : List (String × String)) :
    List (String × String) → GoMap → Log → GoMap × Log
  | [], info, log => (info, log)
  | e :: rest, info, log =>
    let log1 := log ++ [Call.kmod_module_info_get_key (e :: rest)]
    let key := e.1
    let log2 := log1 ++ [Call.kmod_module_info_get_value (e :: rest)]
    let value := e.2
    let info1 := info.set key value
    let log3 := log2 ++ [Call.kmod_list_next (KmodList.infos list) (KmodList.infos (e :: rest))]
    Module.Info.loop list rest info1 log3

/-- Method `(*Module).Info`: the informations about a module. -/
def Module.Info (sub : Subsystem) (m : Module) (log : Log) : Except String GoMap × Log :=
  let info : GoMap := fun _ => none
  let r := sub.kmod_module_get_info log m.mod
  let err := r.1
  let list := r.2
  let log1 := log ++ [Call.kmod_module_get_info m.mod err list]
  if err < 0 then
    let s := goStrerror sub (negCInt err) log1
    (Except.error ("Kmod : unable to get the module information: " ++ s.1), s.2)
  else
    let w := Module.Info.loop list list info log1
    (Except.ok w.1, w.2 ++ [Call.kmod_module_info_free_list list])

/-- The loop of `Versions`: `listCurr` is the second argument. -/
def Module.Versions.loop (list : List (String × Nat)) :
    List (String × Nat) → List Version → Log → List Version × Log
  | [], versions, log => (versions, log)
  | e :: rest, versions, log =>
    let log1 := log ++ [Call.kmod_module_version_get_symbol (e :: rest)]
    let symbol := e.1
    let log2 := log1 ++ [Call.kmod_module_version_get_crc (e :: rest)]
    let crc := e.2 % 18446744073709551616
    let versions1 := versions ++ [Version.mk symbol crc]
    let log3 := log2 ++ [Call.kmod_list_next (KmodList.versions list) (KmodList.versions (e :: rest))]
    Module.Versions.loop list rest versions1 log3

/-- Method `(*Module).Versions`: the exported symbols of a module. -/
def Module.Versions (sub : Subsystem) (m : Module) (log : Log) :
    Except String (List Version) × Log :=
  let r := sub.kmod_module_get_versions log m.mod
  let err := r.1
  let list := r.2
  let log1 := log ++ [Call.kmod_module_get_versions m.mod err list]
  if err < 0 then
    let s := goStrerror sub (negCInt err) log1
    (Except.error ("Kmod : unable to get the module versions: " ++ s.1), s.2)
  else
    let w := Module.Versions.loop list list [] log1
    (Except.ok w.1, w.2 ++ [Call.kmod_module_versions_free_list list])

/-! ## What the instrumented subsystem observes -/

/-- Modelled from the spec: the subsystem itself is foreign code, so which calls add a
reference to native module `p` follows sections 4.3 and 6: a name resolution that
succeeds hands back a freshly referenced object, `ref` adds one reference, and walking
a chain (`kmod_module_get_module`) grants none. -/
def Call.isIncrement (p : Nat) : Call → Bool
  | Call.kmod_module_new_from_name _ _ ret module => decide (0 ≤ ret) && decide (module = some p)
  | Call.kmod_module_ref mod => decide (mod = some p)
  | _ => false

/-- Modelled from the spec: the subsystem itself is foreign code, so which calls drop a
reference to native module `p` follows section 6: `unref` drops one, and the list
release `unref-list` is list-only and does not cascade to the elements. -/
def Call.isDecrement (p : Nat) : Call → Bool
  | Call.kmod_module_unref mod => decide (mod = some p)
  | _ => false

/-- Number of increment calls made on native module `p`. -/
def increments (p : Nat) (log : Log) : Nat :=
  log.countP (Call.isIncrement p)

/-- Number of decrement calls made on native module `p` (its release count). -/
def decrements (p : Nat) (log : Log) : Nat :=
  log.countP (Call.isDecrement p)

/-- The reference count the instrumented subsystem holds for native module `p`. -/
def refCount (p : Nat) (log : Log) : Int :=
  (increments p log : Int) - (decrements p log : Int)

/-- The arguments of the explicit `kmod_module_ref` calls, in call order. -/
def refArgs (log : Log) : List Ptr :=
  log.filterMap (fun c => match c with
    | Call.kmod_module_ref mod => some mod
    | _ => none)

/-- The chain nodes `kmod_module_get_module` was called on, in call order. -/
def visited (log : Log) : List (List Ptr) :=
  log.filterMap (fun c => match c with
    | Call.kmod_module_get_module entry => some entry
    | _ => none)

/-- The modules `kmod_module_probe_insert_module` was invoked on, in call order. -/
def probeArgs (log : Log) : List Ptr :=
  log.filterMap (fun c => match c with
    | Call.kmod_module_probe_insert_module mod _ => some mod
    | _ => none)

/-- The modules `kmod_module_remove_module` was invoked on, in call order. -/
def removeArgs (log : Log) : List Ptr :=
  log.filterMap (fun c => match c with
    | Call.kmod_module_remove_module mod _ => some mod
    | _ => none)

/-- The lists handed to `kmod_module_info_free_list` or
`kmod_module_versions_free_list`, in call order. -/
def freeCalls (log : Log) : List KmodList :=
  log.filterMap (fun c => match c with
    | Call.kmod_module_info_free_list list => some (KmodList.infos list)
    | Call.kmod_module_versions_free_list list => some (KmodList.versions list)
    | _ => none)

/-- Every handle of `hs` is released once, in order (each finalizer runs once). -/
def releaseAll : List Module → Log → Log
  | [], log => log
  | h :: hs, log => releaseAll hs (Module.cleanup h log).2

/-- The calls one walk of `newModuleList` makes from node `cur` of chain `list`. -/
def moduleWalk (list : List Ptr) : List Ptr → Log
  | [] => []
  | e :: rest =>
    [Call.kmod_module_get_module (e :: rest), Call.kmod_module_ref e,
      Call.kmod_list_next (KmodList.modules list) (KmodList.modules (e :: rest))]
      ++ moduleWalk list rest

/-- The non-empty suffixes of a chain: the nodes met walking it front to back. -/
def nodes : List Ptr → List (List Ptr)
  | [] => []
  | e :: rest => (e :: rest) :: nodes rest

/-- The log after probe-insert was invoked on every handle of `ms` in order from
`log`, each call recorded with the status the subsystem answered. -/
def probeTrace (sub : Subsystem) : List Module → Log → Log
  | [], log => log
  | m :: ms, log =>
    probeTrace sub ms
      (log ++ [Call.kmod_module_probe_insert_module m.mod
        (sub.kmod_module_probe_insert_module log m.mod)])

/-- The status the subsystem answers to probe-insert on the `i`-th handle of `hs` once
probe-insert was invoked, from `log`, on the handles before it (0 past the end). -/
def probeStatus (sub : Subsystem) : List Module → Log → Nat → Int
  | [], _, _ => 0
  | h :: _, log, 0 => sub.kmod_module_probe_insert_module log h.mod
  | h :: t, log, i + 1 =>
    probeStatus sub t
      (log ++ [Call.kmod_module_probe_insert_module h.mod
        (sub.kmod_module_probe_insert_module log h.mod)]) i

/-- The value paired with the last occurrence of key `k` in `list`, in enumeration
order; `none` when `k` does not occur. -/
def lastValue (list : List (String × String)) (k : String) : Option String :=
  (list.reverse.find? (fun e => decide (e.1 = k))).map Prod.snd

/-! ## Fake subsystems used to run the code on concrete inputs -/

/-- A fake subsystem: three loaded modules 10, 11, 12 that every alias matches (alias
`snd` matches 10 and 12 only), module 7 resolved by every name, probe-insert failing on
module 11, and an information list that has a duplicate key for module 7. -/
def fake : Subsystem where
  kmod_new := fun _ => some 1
  kmod_load_resources := fun _ _ => 0
  kmod_module_new_from_loaded := fun _ _ => (0, [some 10, some 11, some 12])
  kmod_module_new_from_lookup := fun _ _ a =>
    if a = "snd" then (0, [some 10, some 12]) else (0, [some 10, some 11, some 12])
  kmod_module_new_from_name := fun _ _ _ => (0, some 7)
  kmod_module_get_name := fun _ m => if m = some 11 then "eleven" else "other"
  kmod_module_get_info := fun _ m =>
    if m = some 7 then (0, [("author", "X"), ("license", "GPL"), ("author", "Y")])
    else (0, [("author", "X"), ("license", "GPL")])
  kmod_module_get_versions := fun _ _ => (0, [("printk", 5)])
  kmod_module_probe_insert_module := fun _ m => if m = some 11 then -1 else 0
  kmod_module_remove_module := fun _ _ => 0
  strerror := fun _ _ => "Operation not permitted"

/-- A fake subsystem with nothing loaded and no alias matching: every enumeration and
lookup succeeds with status 0 and an empty chain. -/
def fakeEmpty : Subsystem where
  kmod_new := fun _ => some 1
  kmod_load_resources := fun _ _ => 0
  kmod_module_new_from_loaded := fun _ _ => (0, [])
  kmod_module_new_from_lookup := fun _ _ _ => (0, [])
  kmod_module_new_from_name := fun _ _ _ => (-2, none)
  kmod_module_get_name := fun _ _ => ""
  kmod_module_get_info := fun _ _ => (0, [])
  kmod_module_get_versions := fun _ _ => (0, [])
  kmod_module_probe_insert_module := fun _ _ => 0
  kmod_module_remove_module := fun _ _ => 0
  strerror := fun _ _ => "No such file or directory"

/-- A fake subsystem whose introspection calls fail with status -2 after having stored
a one-entry list in the out-parameter. -/
def fakeFailing : Subsystem where
  kmod_new := fun _ => some 1
  kmod_load_resources := fun _ _ => 0
  kmod_module_new_from_loaded := fun _ _ => (-2, [])
  kmod_module_new_from_lookup := fun _ _ _ => (-2, [])
  kmod_module_new_from_name := fun _ _ _ => (-2, none)
  kmod_module_get_name := fun _ _ => ""
  kmod_module_get_info := fun _ _ => (-2, [("author", "X")])
  kmod_module_get_versions := fun _ _ => (-2, [("printk", 5)])
  kmod_module_probe_insert_module := fun _ _ => -2
  kmod_module_remove_module := fun _ _ => -2
  strerror := fun _ _ => "No such file or directory"

/-! ## Lemmas on the walk of `newModuleList` -/

theorem newModuleList_loop_eq (list : List Ptr) (cur : List Ptr) (modList : ModuleList)
    (log : Log) :
    newModuleList.loop list cur modList log =
      (ModuleList.mk modList.kmodList (modList.modules ++ cur.map newModule),
        log ++ moduleWalk list cur) := by
  induction cur generalizing modList log with
  | nil => simp [newModuleList.loop, moduleWalk]
  | cons e rest ih =>
    simp [newModuleList.loop, moduleWalk, ih, newModule]

theorem newModuleList_eq (list : List Ptr) (log : Log) :
    newModuleList list log =
      (ModuleList.mk list (list.map newModule), log ++ moduleWalk list list) := by
  simp [newModuleList, newModuleList_loop_eq]

theorem refArgs_moduleWalk (list cur : List Ptr) : refArgs (moduleWalk list cur) = cur := by
  induction cur with
  | nil => rfl
  | cons e rest ih =>
    simp only [refArgs] at ih
    simp [moduleWalk, refArgs, ih]

theorem visited_moduleWalk (list cur : List Ptr) : visited (moduleWalk list cur) = nodes cur := by
  induction cur with
  | nil => rfl
  | cons e rest ih =>
    simp only [visited] at ih
    simp [moduleWalk, visited, nodes, ih]

theorem increments_moduleWalk (p : Nat) (list cur : List Ptr) :
    increments p (moduleWalk list cur) = cur.count (some p) := by
  induction cur with
  | nil => rfl
  | cons e rest ih =>
    simp only [increments] at ih
    by_cases h : e = some p
    · subst h
      simp [moduleWalk, increments, Call.isIncrement, ih, List.countP_cons]
    · have h2 : ¬ (some p = e) := fun h3 => h h3.symm
      simp [moduleWalk, increments, Call.isIncrement, ih, List.countP_cons, h, h2,
        List.count_cons]

theorem decrements_moduleWalk (p : Nat) (list cur : List Ptr) :
    decrements p (moduleWalk list cur) = 0 := by
  induction cur with
  | nil => rfl
  | cons e rest ih =>
    simp only [decrements] at ih
    simp [moduleWalk, decrements, Call.isDecrement, ih, List.countP_cons]

theorem refArgs_append (a b : Log) : refArgs (a ++ b) = refArgs a ++ refArgs b := by
  simp [refArgs]

theorem increments_append (p : Nat) (a b : Log) :
    increments p (a ++ b) = increments p a + increments p b := by
  simp [increments]

theorem decrements_append (p : Nat) (a b : Log) :
    decrements p (a ++ b) = decrements p a + decrements p b := by
  simp [decrements]

theorem count_map_newModule (p : Nat) (list : List Ptr) :
    (list.map newModule).count (Module.mk (some p)) = list.count (some p) := by
  induction list with
  | nil => rfl
  | cons e rest ih =>
    by_cases h : e = some p
    · subst h
      simp [newModule, ih]
    · have h2 : ¬ (newModule e = Module.mk (some p)) := by
        intro h3
        apply h
        simpa [newModule] using h3
      simp only [List.map_cons, List.count_cons, ih]
      simp [h, h2]

theorem increments_unref (p : Nat) (m : Ptr) :
    increments p [Call.kmod_module_unref m] = 0 := by
  simp [increments, Call.isIncrement]

theorem decrements_unref (p : Nat) (m : Ptr) :
    decrements p [Call.kmod_module_unref m] = if m = some p then 1 else 0 := by
  by_cases h : m = some p <;> simp [decrements, Call.isDecrement, h]

theorem releaseAll_counts (p : Nat) (hs : List Module) (log : Log) :
    increments p (releaseAll hs log) = increments p log ∧
      decrements p (releaseAll hs log) = decrements p log + hs.count (Module.mk (some p)) := by
  induction hs generalizing log with
  | nil => simp [releaseAll]
  | cons h hs ih =>
    obtain ⟨m⟩ := h
    cases m with
    | none =>
      have h2 : ¬ (Module.mk none = Module.mk (some p)) := by simp
      have h3 := ih log
      simp only [releaseAll, Module.cleanup, List.count_cons]
      simp [h3, h2]
    | some q =>
      have h3 := ih (log ++ [Call.kmod_module_unref (some q)])
      rw [increments_append, decrements_append, increments_unref, decrements_unref] at h3
      have h4 : (Module.cleanup (Module.mk (some q)) log).2
          = log ++ [Call.kmod_module_unref (some q)] := by
        simp [Module.cleanup]
      simp only [releaseAll, h4, List.count_cons]
      by_cases hq : q = p
      · subst hq
        simp at h3 ⊢
        omega
      · have h2 : ¬ (Module.mk (some q) = Module.mk (some p)) := by simp [hq]
        simp [hq] at h3
        simp [h2, hq]
        omega

/-! ## Construction of a ModuleList -/

/-- C9: `newModuleList` walks a finite chain once, front to back, and returns exactly one
handle per entry, the i-th handle wrapping the module of the i-th entry, with exactly
one `kmod_module_ref` call per entry in the same order; `List` and `Lookup` return that
sequence unchanged when the subsystem call succeeds. -/
theorem newModuleList_preserves_order (sub : Subsystem) (km : Kmod) (aliasName : String)
    (list : List Ptr) (log : Log) :
    (newModuleList list log).1.modules = list.map newModule ∧
    (newModuleList list log).1.modules.length = list.length ∧
    (∀ i (hi : i < list.length),
      (newModuleList list log).1.modules.get? i = some (Module.mk (list.get ⟨i, hi⟩))) ∧
    (newModuleList list log).1.kmodList = list ∧
    visited (newModuleList list log).2 = visited log ++ nodes list ∧
    refArgs (newModuleList list log).2 = refArgs log ++ list ∧
    (0 ≤ (sub.kmod_module_new_from_loaded log km.ctx).1 →
      (Kmod.List sub km log).1 =
        Except.ok ((sub.kmod_module_new_from_loaded log km.ctx).2.map newModule)) ∧
    (0 ≤ (sub.kmod_module_new_from_lookup log km.ctx aliasName).1 →
      (Kmod.Lookup sub km aliasName log).1 =
        Except.ok ((sub.kmod_module_new_from_lookup log km.ctx aliasName).2.map newModule)) := by
  refine ⟨?_, ?_, ?_, ?_, ?_, ?_, ?_, ?_⟩
  · simp [newModuleList_eq]
  · simp [newModuleList_eq]
  · intro i hi
    simp [newModuleList_eq, newModule, List.getElem?_eq_getElem hi]
  · simp [newModuleList_eq]
  · have h := visited_moduleWalk list list
    simp only [visited] at h
    simp [newModuleList_eq, visited, h]
  · have h := refArgs_moduleWalk list list
    simp only [refArgs] at h
    simp [newModuleList_eq, refArgs, h]
  · intro h
    have h2 : ¬ ((sub.kmod_module_new_from_loaded log km.ctx).1 < 0) := by omega
    simp [Kmod.List, h2, newModuleList_eq]
  · intro h
    have h2 : ¬ ((sub.kmod_module_new_from_lookup log km.ctx aliasName).1 < 0) := by omega
    simp [Kmod.Lookup, h2, newModuleList_eq]

/-- Witness of C9 on the fake subsystem with loaded modules 10, 11, 12. -/
theorem newModuleList_preserves_order_witness :
    (Kmod.List fake (Kmod.mk (some 1)) []).1
      = Except.ok [Module.mk (some 10), Module.mk (some 11), Module.mk (some 12)] ∧
    (Kmod.Lookup fake (Kmod.mk (some 1)) "a" []).1
      = Except.ok [Module.mk (some 10), Module.mk (some 11), Module.mk (some 12)] ∧
    (newModuleList [some 10, some 11, some 12] []).1.modules.get? 1
      = some (Module.mk (some 11)) := by
  have h := newModuleList_preserves_order fake (Kmod.mk (some 1)) "a"
    [some 10, some 11, some 12] []
  refine ⟨?_, ?_, ?_⟩
  · exact h.2.2.2.2.2.2.1 (by decide)
  · exact h.2.2.2.2.2.2.2 (by decide)
  · exact h.2.2.1 1 (by decide)

/-! ## Zero matches -/

/-- C8: when the enumeration (resp. the lookup, for every alias) answers a non-negative
status and an empty chain, `List` (resp. `Lookup`) returns the empty sequence, makes no
call besides that one (so no `kmod_module_ref` call), and does not panic; `List` and
`Lookup` panic if and only if the subsystem call answers a negative status. -/
theorem zero_matches_is_success (sub : Subsystem) (km : Kmod) (aliasName : String)
    (log : Log) :
    (∀ err, sub.kmod_module_new_from_loaded log km.ctx = (err, []) → 0 ≤ err →
      Kmod.List sub km log
        = (Except.ok [], log ++ [Call.kmod_module_new_from_loaded km.ctx err []]) ∧
      refArgs (Kmod.List sub km log).2 = refArgs log) ∧
    (∀ err, sub.kmod_module_new_from_lookup log km.ctx aliasName = (err, []) → 0 ≤ err →
      Kmod.Lookup sub km aliasName log
        = (Except.ok [], log ++ [Call.kmod_module_new_from_lookup km.ctx aliasName err []]) ∧
      refArgs (Kmod.Lookup sub km aliasName log).2 = refArgs log) ∧
    ((∃ msg, (Kmod.List sub km log).1 = Except.error msg) ↔
      (sub.kmod_module_new_from_loaded log km.ctx).1 < 0) ∧
    ((∃ msg, (Kmod.Lookup sub km aliasName log).1 = Except.error msg) ↔
      (sub.kmod_module_new_from_lookup log km.ctx aliasName).1 < 0) := by
  refine ⟨?_, ?_, ?_, ?_⟩
  · intro err h h0
    have h2 : ¬ (err < 0) := by omega
    simp [Kmod.List, h, h2, newModuleList_eq, moduleWalk, refArgs]
  · intro err h h0
    have h2 : ¬ (err < 0) := by omega
    simp [Kmod.Lookup, h, h2, newModuleList_eq, moduleWalk, refArgs]
  · by_cases h : (sub.kmod_module_new_from_loaded log km.ctx).1 < 0
    · simp [Kmod.List, h]
    · simp [Kmod.List, h]
  · by_cases h : (sub.kmod_module_new_from_lookup log km.ctx aliasName).1 < 0
    · simp [Kmod.Lookup, h]
    · simp [Kmod.Lookup, h]

/-- Witness of C8 on the fake subsystem with nothing loaded and no alias matching. -/
theorem zero_matches_is_success_witness :
    Kmod.List fakeEmpty (Kmod.mk (some 1)) []
      = (Except.ok [], [Call.kmod_module_new_from_loaded (some 1) 0 []]) ∧
    Kmod.Lookup fakeEmpty (Kmod.mk (some 1)) "nonexistent-alias" []
      = (Except.ok [],
          [Call.kmod_module_new_from_lookup (some 1) "nonexistent-alias" 0 []]) := by
  have h := zero_matches_is_success fakeEmpty (Kmod.mk (some 1)) "nonexistent-alias" []
  exact ⟨(h.1 0 rfl (by decide)).1, (h.2.1 0 rfl (by decide)).1⟩

/-! ## Reference counting of module handles -/

/-- C1: on the instrumented subsystem, building a handle adds exactly one increment and
no decrement on its native module (the fresh reference handed back by the name
resolution, with no `kmod_module_ref` call, or the one explicit `kmod_module_ref` per
handle of the list construction inside `List` and `Lookup`), one run of
`Module.cleanup` makes exactly one call, an unref of that module, so that over the life
of the handle (construction, then one release) the increments and the decrements on each
native module are equal in number. -/
theorem handle_increments_eq_decrements (sub : Subsystem) (km : Kmod) (log : Log) :
    (∀ name h log1, Kmod.ModuleFromName sub km name log = (Except.ok h, log1) →
      refArgs log1 = refArgs log ∧
      ∀ p, h.mod = some p →
        increments p log1 = increments p log + 1 ∧
        decrements p log1 = decrements p log ∧
        increments p (Module.cleanup h log1).2 = increments p log + 1 ∧
        decrements p (Module.cleanup h log1).2 = decrements p log + 1) ∧
    (∀ hs log1,
      (Kmod.List sub km log = (Except.ok hs, log1) ∨
        ∃ aliasName, Kmod.Lookup sub km aliasName log = (Except.ok hs, log1)) →
      refArgs log1 = refArgs log ++ hs.map Module.mod ∧
      ∀ p,
        increments p log1 = increments p log + hs.count (Module.mk (some p)) ∧
        decrements p log1 = decrements p log ∧
        increments p (releaseAll hs log1) = increments p log + hs.count (Module.mk (some p)) ∧
        decrements p (releaseAll hs log1)
          = decrements p log + hs.count (Module.mk (some p))) ∧
    (∀ p log2,
      Module.cleanup (Module.mk (some p)) log2
        = (Module.mk (some p), log2 ++ [Call.kmod_module_unref (some p)]) ∧
      increments p (Module.cleanup (Module.mk (some p)) log2).2 = increments p log2 ∧
      decrements p (Module.cleanup (Module.mk (some p)) log2).2 = decrements p log2 + 1) := by
  refine ⟨?_, ?_, ?_⟩
  · intro name h log1 hres
    by_cases herr : (sub.kmod_module_new_from_name log km.ctx name).1 < 0
    · simp [Kmod.ModuleFromName, herr] at hres
    · simp only [Kmod.ModuleFromName, herr, if_false, Prod.mk.injEq, Except.ok.injEq] at hres
      obtain ⟨hh, hl⟩ := hres
      subst hh
      subst hl
      refine ⟨by simp [refArgs], ?_⟩
      intro p hp
      simp only [newModule] at hp
      have h0 : 0 ≤ (sub.kmod_module_new_from_name log km.ctx name).1 := by omega
      simp [Module.cleanup, newModule, hp, increments, decrements, Call.isIncrement,
        Call.isDecrement, h0]
  · intro hs log1 hres
    have key : ∃ c list, log1 = log ++ [c] ++ moduleWalk list list ∧
        hs = list.map newModule ∧ refArgs [c] = [] ∧
        ∀ p, increments p [c] = 0 ∧ decrements p [c] = 0 := by
      rcases hres with hres | ⟨aliasName, hres⟩
      · by_cases herr : (sub.kmod_module_new_from_loaded log km.ctx).1 < 0
        · simp [Kmod.List, herr] at hres
        · simp only [Kmod.List, herr, if_false, Prod.mk.injEq, Except.ok.injEq,
            newModuleList_eq] at hres
          exact ⟨_, _, hres.2.symm, hres.1.symm, by simp [refArgs],
            fun p => ⟨by simp [increments, Call.isIncrement],
              by simp [decrements, Call.isDecrement]⟩⟩
      · by_cases herr : (sub.kmod_module_new_from_lookup log km.ctx aliasName).1 < 0
        · simp [Kmod.Lookup, herr] at hres
        · simp only [Kmod.Lookup, herr, if_false, Prod.mk.injEq, Except.ok.injEq,
            newModuleList_eq] at hres
          exact ⟨_, _, hres.2.symm, hres.1.symm, by simp [refArgs],
            fun p => ⟨by simp [increments, Call.isIncrement],
              by simp [decrements, Call.isDecrement]⟩⟩
    obtain ⟨c, list, hlog, hhs, href, hcnt⟩ := key
    have hmap : (list.map newModule).map Module.mod = list := by
      simp [newModule, Function.comp_def]
    refine ⟨?_, ?_⟩
    · rw [hlog, hhs, refArgs_append, refArgs_append, href, refArgs_moduleWalk, hmap]
      simp
    intro p
    have hinc := (hcnt p).1
    have hdec := (hcnt p).2
    have h1 : increments p log1 = increments p log + hs.count (Module.mk (some p)) := by
      rw [hlog, hhs, increments_append, increments_append, hinc, increments_moduleWalk,
        count_map_newModule]
      omega
    have h2 : decrements p log1 = decrements p log := by
      rw [hlog, decrements_append, decrements_append, hdec, decrements_moduleWalk]
      omega
    have h3 := releaseAll_counts p hs log1
    refine ⟨h1, h2, ?_, ?_⟩
    · rw [h3.1, h1]
    · rw [h3.2, h2]
  · intro p log2
    have h4 : Module.cleanup (Module.mk (some p)) log2
        = (Module.mk (some p), log2 ++ [Call.kmod_module_unref (some p)]) := by
      simp [Module.cleanup]
    refine ⟨h4, ?_, ?_⟩
    · rw [h4]
      simp [increments_append, increments_unref]
    · rw [h4]
      simp [decrements_append, decrements_unref]

/-- Witness of C1: a handle on module 7 obtained by name, and the handles on modules
10, 11, 12 obtained by `List`, on the fake subsystem. -/
theorem handle_increments_eq_decrements_witness :
    (increments 7 (Module.cleanup (Module.mk (some 7))
        [Call.kmod_module_new_from_name (some 1) "pcspkr" 0 (some 7)]).2 = 0 + 1 ∧
      decrements 7 (Module.cleanup (Module.mk (some 7))
        [Call.kmod_module_new_from_name (some 1) "pcspkr" 0 (some 7)]).2 = 0 + 1) ∧
    (increments 11 (releaseAll [Module.mk (some 10), Module.mk (some 11), Module.mk (some 12)]
        (Kmod.List fake (Kmod.mk (some 1)) []).2) = 0 + 1 ∧
      decrements 11 (releaseAll [Module.mk (some 10), Module.mk (some 11), Module.mk (some 12)]
        (Kmod.List fake (Kmod.mk (some 1)) []).2) = 0 + 1) := by
  have h := handle_increments_eq_decrements fake (Kmod.mk (some 1)) []
  have h1 := (h.1 "pcspkr" (Module.mk (some 7))
    [Call.kmod_module_new_from_name (some 1) "pcspkr" 0 (some 7)] rfl).2 7 rfl
  have h2 := (h.2.1 [Module.mk (some 10), Module.mk (some 11), Module.mk (some 12)]
    (Kmod.List fake (Kmod.mk (some 1)) []).2 (Or.inl rfl)).2 11
  exact ⟨⟨h1.2.2.1, h1.2.2.2⟩, ⟨h2.2.2.1, h2.2.2.2⟩⟩

/-! ## Release of a ModuleList -/

/-- C4: releasing the list built by `newModuleList` over any chain makes one call at
most, `kmod_module_unref_list` on the chain; it leaves the handles, the number of
increments, the number of decrements (release count) and the reference count of every
native module unchanged, and every handle of the list still makes exactly one unref
call on its module when it is released afterwards. -/
theorem ModuleList_cleanup_frame (list : List Ptr) (log log2 : Log) :
    (ModuleList.cleanup (newModuleList list log).1 log2).1 = (newModuleList list log).1 ∧
    (ModuleList.cleanup (newModuleList list log).1 log2).2
      = log2 ++ (if list = [] then [] else [Call.kmod_module_unref_list list]) ∧
    (newModuleList list log).1.modules.length = list.length ∧
    (∀ p,
      increments p (ModuleList.cleanup (newModuleList list log).1 log2).2 = increments p log2 ∧
      decrements p (ModuleList.cleanup (newModuleList list log).1 log2).2 = decrements p log2 ∧
      refCount p (ModuleList.cleanup (newModuleList list log).1 log2).2 = refCount p log2) ∧
    (∀ h, h ∈ (ModuleList.cleanup (newModuleList list log).1 log2).1.modules →
      ∀ p, h.mod = some p → ∀ log3,
        Module.cleanup h log3 = (h, log3 ++ [Call.kmod_module_unref (some p)]) ∧
        decrements p (Module.cleanup h log3).2 = decrements p log3 + 1) := by
  have hlog : (ModuleList.cleanup (newModuleList list log).1 log2).2
      = log2 ++ (if list = [] then [] else [Call.kmod_module_unref_list list]) := by
    by_cases h : list = []
    · simp [ModuleList.cleanup, newModuleList_eq, h]
    · simp [ModuleList.cleanup, newModuleList_eq, h]
  have hframe : ∀ p, increments p (if list = [] then [] else [Call.kmod_module_unref_list list]) = 0
      ∧ decrements p (if list = [] then [] else [Call.kmod_module_unref_list list]) = 0 := by
    intro p
    by_cases h : list = []
    · simp [h, increments, decrements]
    · simp [h, increments, decrements, Call.isIncrement, Call.isDecrement]
  refine ⟨?_, hlog, ?_, ?_, ?_⟩
  · by_cases h : list = []
    · simp [ModuleList.cleanup, newModuleList_eq, h]
    · simp [ModuleList.cleanup, newModuleList_eq, h]
  · simp [newModuleList_eq]
  · intro p
    have hi : increments p (ModuleList.cleanup (newModuleList list log).1 log2).2
        = increments p log2 := by
      rw [hlog, increments_append, (hframe p).1]
      omega
    have hd : decrements p (ModuleList.cleanup (newModuleList list log).1 log2).2
        = decrements p log2 := by
      rw [hlog, decrements_append, (hframe p).2]
      omega
    refine ⟨hi, hd, ?_⟩
    simp only [refCount, hi, hd]
  · intro h _ p hp log3
    have h4 : Module.cleanup h log3 = (h, log3 ++ [Call.kmod_module_unref (some p)]) := by
      simp [Module.cleanup, hp]
    refine ⟨h4, ?_⟩
    rw [h4]
    simp [decrements_append, decrements_unref]

/-- Witness of C4: a list of three handles; the second one is released after the list. -/
theorem ModuleList_cleanup_frame_witness :
    Module.cleanup (Module.mk (some 11)) [Call.kmod_module_unref_list [some 10, some 11, some 12]]
      = (Module.mk (some 11),
          [Call.kmod_module_unref_list [some 10, some 11, some 12]]
            ++ [Call.kmod_module_unref (some 11)]) ∧
    decrements 11 (Module.cleanup (Module.mk (some 11))
        [Call.kmod_module_unref_list [some 10, some 11, some 12]]).2
      = decrements 11 [Call.kmod_module_unref_list [some 10, some 11, some 12]] + 1 :=
  (ModuleList_cleanup_frame [some 10, some 11, some 12] [] []).2.2.2.2
    (Module.mk (some 11)) (by decide) 11 rfl
    [Call.kmod_module_unref_list [some 10, some 11, some 12]]

/-! ## Insert -/

theorem probeArgs_moduleWalk (list cur : List Ptr) : probeArgs (moduleWalk list cur) = [] := by
  induction cur with
  | nil => rfl
  | cons e rest ih =>
    simp only [probeArgs] at ih
    simp [moduleWalk, probeArgs, ih]

theorem removeArgs_moduleWalk (list cur : List Ptr) : removeArgs (moduleWalk list cur) = [] := by
  induction cur with
  | nil => rfl
  | cons e rest ih =>
    simp only [removeArgs] at ih
    simp [moduleWalk, removeArgs, ih]

theorem probeArgs_append (a b : Log) : probeArgs (a ++ b) = probeArgs a ++ probeArgs b := by
  simp [probeArgs]

theorem removeArgs_append (a b : Log) : removeArgs (a ++ b) = removeArgs a ++ removeArgs b := by
  simp [removeArgs]

theorem probeArgs_probeTrace (sub : Subsystem) (ms : List Module) (log : Log) :
    probeArgs (probeTrace sub ms log) = probeArgs log ++ ms.map Module.mod := by
  induction ms generalizing log with
  | nil => simp [probeTrace]
  | cons m ms ih =>
    simp [probeTrace, ih, probeArgs_append]
    simp [probeArgs]

theorem removeArgs_probeTrace (sub : Subsystem) (ms : List Module) (log : Log) :
    removeArgs (probeTrace sub ms log) = removeArgs log := by
  induction ms generalizing log with
  | nil => simp [probeTrace]
  | cons m ms ih =>
    simp [probeTrace, ih, removeArgs_append]
    simp [removeArgs]

theorem Lookup_ok_log (sub : Subsystem) (km : Kmod) (aliasName : String) (log log1 : Log)
    (hs : List Module) (hl : Kmod.Lookup sub km aliasName log = (Except.ok hs, log1)) :
    probeArgs log1 = probeArgs log ∧ removeArgs log1 = removeArgs log := by
  by_cases herr : (sub.kmod_module_new_from_lookup log km.ctx aliasName).1 < 0
  · simp [Kmod.Lookup, herr] at hl
  · simp only [Kmod.Lookup, herr, if_false, Prod.mk.injEq, Except.ok.injEq,
      newModuleList_eq] at hl
    rw [← hl.2]
    constructor
    · rw [probeArgs_append, probeArgs_append, probeArgs_moduleWalk]
      simp [probeArgs]
    · rw [removeArgs_append, removeArgs_append, removeArgs_moduleWalk]
      simp [removeArgs]

theorem Insert_loop_fail (sub : Subsystem) (hs : List Module) (log : Log) (i : Nat)
    (hi : i < hs.length) (hneg : probeStatus sub hs log i < 0)
    (hmin : ∀ j, j < i → 0 ≤ probeStatus sub hs log j) :
    Kmod.Insert.loop sub hs log =
      (Except.error ("Could not insert module "
          ++ sub.kmod_module_get_name (probeTrace sub (hs.take (i + 1)) log) (hs.get ⟨i, hi⟩).mod
          ++ " : "
          ++ sub.strerror (probeTrace sub (hs.take (i + 1)) log ++
              [Call.kmod_module_get_name (hs.get ⟨i, hi⟩).mod
                (sub.kmod_module_get_name (probeTrace sub (hs.take (i + 1)) log)
                  (hs.get ⟨i, hi⟩).mod)])
              (negCInt (probeStatus sub hs log i))),
        probeTrace sub (hs.take (i + 1)) log ++
          [Call.kmod_module_get_name (hs.get ⟨i, hi⟩).mod
            (sub.kmod_module_get_name (probeTrace sub (hs.take (i + 1)) log)
              (hs.get ⟨i, hi⟩).mod),
           Call.strerror (negCInt (probeStatus sub hs log i))
            (sub.strerror (probeTrace sub (hs.take (i + 1)) log ++
              [Call.kmod_module_get_name (hs.get ⟨i, hi⟩).mod
                (sub.kmod_module_get_name (probeTrace sub (hs.take (i + 1)) log)
                  (hs.get ⟨i, hi⟩).mod)])
              (negCInt (probeStatus sub hs log i)))]) := by
  induction hs generalizing log i with
  | nil => simp at hi
  | cons h t ih =>
    cases i with
    | zero =>
      simp only [probeStatus] at hneg
      simp [Kmod.Insert.loop, hneg, probeTrace, probeStatus, Module.Name, goStrerror]
    | succ k =>
      have h0 : 0 ≤ sub.kmod_module_probe_insert_module log h.mod := by
        have := hmin 0 (by omega)
        simpa [probeStatus] using this
      have h1 : ¬ (sub.kmod_module_probe_insert_module log h.mod < 0) := by omega
      have hk : k < t.length := by simpa using hi
      have hneg2 : probeStatus sub t
          (log ++ [Call.kmod_module_probe_insert_module h.mod
            (sub.kmod_module_probe_insert_module log h.mod)]) k < 0 := by
        simpa [probeStatus] using hneg
      have hmin2 : ∀ j, j < k → 0 ≤ probeStatus sub t
          (log ++ [Call.kmod_module_probe_insert_module h.mod
            (sub.kmod_module_probe_insert_module log h.mod)]) j := by
        intro j hj
        have := hmin (j + 1) (by omega)
        simpa [probeStatus] using this
      have := ih _ k hk hneg2 hmin2
      simp only [Kmod.Insert.loop, h1, if_false, this]
      simp [probeTrace, probeStatus]

theorem Insert_loop_ok (sub : Subsystem) (hs : List Module) (log : Log)
    (hall : ∀ j, j < hs.length → 0 ≤ probeStatus sub hs log j) :
    Kmod.Insert.loop sub hs log = (Except.ok (), probeTrace sub hs log) := by
  induction hs generalizing log with
  | nil => simp [Kmod.Insert.loop, probeTrace]
  | cons h t ih =>
    have h0 : 0 ≤ sub.kmod_module_probe_insert_module log h.mod := by
      have := hall 0 (by simp)
      simpa [probeStatus] using this
    have h1 : ¬ (sub.kmod_module_probe_insert_module log h.mod < 0) := by omega
    have hall2 : ∀ j, j < t.length → 0 ≤ probeStatus sub t
        (log ++ [Call.kmod_module_probe_insert_module h.mod
          (sub.kmod_module_probe_insert_module log h.mod)]) j := by
      intro j hj
      have := hall (j + 1) (by simpa using hj)
      simpa [probeStatus] using this
    simp only [Kmod.Insert.loop, h1, if_false, ih _ hall2, probeTrace]

/-- C5: let `Lookup` yield the handles `hs`.  If `i` is the smallest index at which
probe-insert answers a negative status, `Insert` invokes probe-insert on exactly the
handles 0..i, once each and in order, never on a later handle, makes no remove call, and
panics with a text that contains the name of handle `i`; if probe-insert answers no
negative status, `Insert` invokes it once on every handle in order and returns. -/
theorem Insert_fail_fast (sub : Subsystem) (km : Kmod) (name : String) (log log1 : Log)
    (hs : List Module) (hl : Kmod.Lookup sub km name log = (Except.ok hs, log1)) :
    (∀ i (hi : i < hs.length), probeStatus sub hs log1 i < 0 →
      (∀ j, j < i → 0 ≤ probeStatus sub hs log1 j) →
      ∃ nm em,
        nm = sub.kmod_module_get_name (probeTrace sub (hs.take (i + 1)) log1)
          (hs.get ⟨i, hi⟩).mod ∧
        em = sub.strerror (probeTrace sub (hs.take (i + 1)) log1 ++
          [Call.kmod_module_get_name (hs.get ⟨i, hi⟩).mod nm])
          (negCInt (probeStatus sub hs log1 i)) ∧
        Kmod.Insert sub km name log =
          (Except.error ("Could not insert module " ++ nm ++ " : " ++ em),
            probeTrace sub (hs.take (i + 1)) log1 ++
              [Call.kmod_module_get_name (hs.get ⟨i, hi⟩).mod nm,
               Call.strerror (negCInt (probeStatus sub hs log1 i)) em]) ∧
        probeArgs (Kmod.Insert sub km name log).2
          = probeArgs log ++ (hs.take (i + 1)).map Module.mod ∧
        removeArgs (Kmod.Insert sub km name log).2 = removeArgs log) ∧
    ((∀ j, j < hs.length → 0 ≤ probeStatus sub hs log1 j) →
      Kmod.Insert sub km name log = (Except.ok (), probeTrace sub hs log1) ∧
      probeArgs (Kmod.Insert sub km name log).2 = probeArgs log ++ hs.map Module.mod ∧
      removeArgs (Kmod.Insert sub km name log).2 = removeArgs log) := by
  have hlog := Lookup_ok_log sub km name log log1 hs hl
  constructor
  · intro i hi hneg hmin
    have hloop := Insert_loop_fail sub hs log1 i hi hneg hmin
    have hins : Kmod.Insert sub km name log = Kmod.Insert.loop sub hs log1 := by
      simp [Kmod.Insert, hl]
    refine ⟨sub.kmod_module_get_name (probeTrace sub (hs.take (i + 1)) log1)
        (hs.get ⟨i, hi⟩).mod,
      sub.strerror (probeTrace sub (hs.take (i + 1)) log1 ++
        [Call.kmod_module_get_name (hs.get ⟨i, hi⟩).mod
          (sub.kmod_module_get_name (probeTrace sub (hs.take (i + 1)) log1)
            (hs.get ⟨i, hi⟩).mod)])
        (negCInt (probeStatus sub hs log1 i)), rfl, rfl, ?_, ?_, ?_⟩
    · rw [hins, hloop]
    · rw [hins, hloop]
      simp only [probeArgs_append, probeArgs_probeTrace, hlog.1]
      simp [probeArgs]
    · rw [hins, hloop]
      simp only [removeArgs_append, removeArgs_probeTrace, hlog.2]
      simp [removeArgs]
  · intro hall
    have hloop := Insert_loop_ok sub hs log1 hall
    have hins : Kmod.Insert sub km name log = Kmod.Insert.loop sub hs log1 := by
      simp [Kmod.Insert, hl]
    refine ⟨?_, ?_, ?_⟩
    · rw [hins, hloop]
    · rw [hins, hloop, probeArgs_probeTrace, hlog.1]
    · rw [hins, hloop, removeArgs_probeTrace, hlog.2]

/-- Witness of C5: alias `a` matches modules 10, 11, 12 and probe-insert fails on 11;
alias `snd` matches 10 and 12 and every probe-insert succeeds. -/
theorem Insert_fail_fast_witness :
    ((Kmod.Insert fake (Kmod.mk (some 1)) "a" []).1
        = Except.error "Could not insert module eleven : Operation not permitted" ∧
      probeArgs (Kmod.Insert fake (Kmod.mk (some 1)) "a" []).2 = [some 10, some 11] ∧
      removeArgs (Kmod.Insert fake (Kmod.mk (some 1)) "a" []).2 = []) ∧
    ((Kmod.Insert fake (Kmod.mk (some 1)) "snd" []).1 = Except.ok () ∧
      probeArgs (Kmod.Insert fake (Kmod.mk (some 1)) "snd" []).2 = [some 10, some 12]) := by
  have ha := (Insert_fail_fast fake (Kmod.mk (some 1)) "a" []
    (Kmod.Lookup fake (Kmod.mk (some 1)) "a" []).2
    [Module.mk (some 10), Module.mk (some 11), Module.mk (some 12)] rfl).1 1 (by decide)
    (by decide) (by intro j hj; interval_cases j; decide)
  have hb := (Insert_fail_fast fake (Kmod.mk (some 1)) "snd" []
    (Kmod.Lookup fake (Kmod.mk (some 1)) "snd" []).2
    [Module.mk (some 10), Module.mk (some 12)] rfl).2
    (by intro j hj; simp at hj; interval_cases j <;> decide)
  obtain ⟨nm, em, hnm, hem, hins, hp, hr⟩ := ha
  have hnm2 : nm = "eleven" := hnm
  subst hnm2
  have hem2 : em = "Operation not permitted" := hem
  subst hem2
  refine ⟨⟨?_, hp, hr⟩, ?_, hb.2.1⟩
  · rw [hins]
    rfl
  · rw [hb.1]

/-- C10 on the code: when the lookup succeeds and matches no module, `Insert` invokes
probe-insert on nothing and returns normally; it does not panic. -/
theorem Insert_no_match_returns (km : Kmod) (name : String) (log : Log) :
    Kmod.Insert fakeEmpty km name log
      = (Except.ok (), log ++ [Call.kmod_module_new_from_lookup km.ctx name 0 []]) ∧
    (Kmod.Insert fakeEmpty (Kmod.mk (some 1)) "nonexistent" []).1 = Except.ok () := by
  constructor
  · simp [Kmod.Insert, Kmod.Lookup, fakeEmpty, newModuleList_eq, moduleWalk,
      Kmod.Insert.loop]
  · rfl

/-! ## Release of the context and of a module handle -/

/-- C3: a context returned by `NewKmod` holds a connection; the first run of
`Kmod.cleanup` calls unload-resources and then unref on it, once each, and clears the
field; a further run makes no call and changes nothing, so two runs have the effect of
one. -/
theorem Kmod_cleanup_idempotent (sub : Subsystem) (log0 log1 : Log) (km : Kmod)
    (hnew : NewKmod sub log0 = (Except.ok km, log1)) (log log2 : Log) :
    ∃ c, km.ctx = some c ∧
      Kmod.cleanup km log
        = (Kmod.mk none,
            log ++ [Call.kmod_unload_resources (some c), Call.kmod_unref (some c)]) ∧
      Kmod.cleanup (Kmod.cleanup km log).1 log2 = ((Kmod.cleanup km log).1, log2) ∧
      Kmod.cleanup (Kmod.cleanup km log).1 (Kmod.cleanup km log).2 = Kmod.cleanup km log := by
  have hctx : km.ctx ≠ none := by
    intro hnone
    by_cases h1 : sub.kmod_new log0 = none
    · simp [NewKmod, h1] at hnew
    · by_cases h2 : sub.kmod_load_resources (log0 ++ [Call.kmod_new (sub.kmod_new log0)])
          (sub.kmod_new log0) < 0
      · simp [NewKmod, h1, h2] at hnew
      · simp only [NewKmod, h1, h2, if_false, Prod.mk.injEq, Except.ok.injEq] at hnew
        rw [← hnew.1] at hnone
        exact h1 hnone
  obtain ⟨ctx⟩ := km
  cases ctx with
  | none => exact absurd rfl hctx
  | some c =>
    refine ⟨c, rfl, ?_, ?_, ?_⟩
    · simp [Kmod.cleanup]
    · simp [Kmod.cleanup]
    · simp [Kmod.cleanup]

/-- Witness of C3: the context the fake subsystem opens, connection 1. -/
theorem Kmod_cleanup_idempotent_witness :
    ∃ c, (Kmod.mk (some 1)).ctx = some c ∧
      Kmod.cleanup (Kmod.mk (some 1)) []
        = (Kmod.mk none,
            [] ++ [Call.kmod_unload_resources (some c), Call.kmod_unref (some c)]) ∧
      Kmod.cleanup (Kmod.cleanup (Kmod.mk (some 1)) []).1 []
        = ((Kmod.cleanup (Kmod.mk (some 1)) []).1, []) ∧
      Kmod.cleanup (Kmod.cleanup (Kmod.mk (some 1)) []).1 (Kmod.cleanup (Kmod.mk (some 1)) []).2
        = Kmod.cleanup (Kmod.mk (some 1)) [] :=
  Kmod_cleanup_idempotent fake [] (NewKmod fake []).2 (Kmod.mk (some 1)) rfl [] []

/-- C2 on the code: `Module.cleanup` never clears the `mod` field, so a second run on
the same handle calls `kmod_module_unref` on the native module again: two runs make two
decrements. -/
theorem Module_cleanup_twice_unrefs_twice (p : Nat) (log : Log) :
    (Module.cleanup (Module.mk (some p)) log).1 = Module.mk (some p) ∧
    Module.cleanup (Module.cleanup (Module.mk (some p)) log).1
        (Module.cleanup (Module.mk (some p)) log).2
      = (Module.mk (some p),
          log ++ [Call.kmod_module_unref (some p), Call.kmod_module_unref (some p)]) ∧
    decrements p (Module.cleanup (Module.cleanup (Module.mk (some p)) log).1
        (Module.cleanup (Module.mk (some p)) log).2).2 = decrements p log + 2 ∧
    (Module.cleanup (Module.cleanup (Module.mk (some 7)) []).1
        (Module.cleanup (Module.mk (some 7)) []).2).2
      = [Call.kmod_module_unref (some 7), Call.kmod_module_unref (some 7)] := by
  refine ⟨?_, ?_, ?_, ?_⟩
  · simp [Module.cleanup]
  · simp [Module.cleanup]
  · simp [Module.cleanup, decrements, Call.isDecrement]
  · rfl

/-! ## Info and Versions -/

theorem Info_loop_lookup (list cur : List (String × String)) (info : GoMap) (log : Log)
    (k : String) :
    (Module.Info.loop list cur info log).1 k = (lastValue cur k).or (info k) := by
  induction cur generalizing info log with
  | nil => simp [Module.Info.loop, lastValue]
  | cons e rest ih =>
    simp only [Module.Info.loop, ih, lastValue, List.reverse_cons, List.find?_append]
    cases hfind : List.find? (fun e => decide (e.1 = k)) rest.reverse with
    | some x => simp
    | none =>
      by_cases hk : e.1 = k
      · simp [GoMap.set, hk]
      · have hk2 : ¬ (k = e.1) := fun h => hk h.symm
        simp [GoMap.set, hk, hk2]

theorem lastValue_isSome (list : List (String × String)) (k : String) :
    (lastValue list k).isSome ↔ k ∈ list.map Prod.fst := by
  simp only [lastValue, Option.isSome_map', List.find?_isSome, List.mem_reverse,
    List.mem_map]
  constructor
  · rintro ⟨x, hx, hp⟩
    exact ⟨x, hx, by simpa using hp⟩
  · rintro ⟨x, hx, hp⟩
    exact ⟨x, hx, by simpa using hp⟩

theorem freeCalls_Info_loop (list cur : List (String × String)) (info : GoMap) (log : Log) :
    freeCalls (Module.Info.loop list cur info log).2 = freeCalls log := by
  induction cur generalizing info log with
  | nil => simp [Module.Info.loop]
  | cons e rest ih =>
    simp only [Module.Info.loop, ih]
    simp [freeCalls]

theorem freeCalls_Versions_loop (list cur : List (String × Nat)) (versions : List Version)
    (log : Log) :
    freeCalls (Module.Versions.loop list cur versions log).2 = freeCalls log := by
  induction cur generalizing versions log with
  | nil => simp [Module.Versions.loop]
  | cons e rest ih =>
    simp only [Module.Versions.loop, ih]
    simp [freeCalls]

/-- C6: when `kmod_module_get_info` answers a non-negative status and a key/value list,
`Info` returns the mapping that sends each key to the value of its last occurrence in
the list, and whose keys are exactly the keys of the list. -/
theorem Info_last_value_wins (sub : Subsystem) (m : Module) (log : Log) (err : Int)
    (list : List (String × String))
    (hcall : sub.kmod_module_get_info log m.mod = (err, list)) (hok : 0 ≤ err) :
    ∃ info, (Module.Info sub m log).1 = Except.ok info ∧
      (∀ k, info k = lastValue list k) ∧
      (∀ k, (info k).isSome ↔ k ∈ list.map Prod.fst) := by
  have h2 : ¬ (err < 0) := by omega
  have hk : ∀ k, (Module.Info.loop list list (fun _ => none) (log ++
      [Call.kmod_module_get_info m.mod err list])).1 k = lastValue list k := by
    intro k
    rw [Info_loop_lookup]
    cases lastValue list k <;> simp
  refine ⟨(Module.Info.loop list list (fun _ => none) (log ++
      [Call.kmod_module_get_info m.mod err list])).1, ?_, hk, ?_⟩
  · simp [Module.Info, hcall, h2]
  · intro k
    rw [hk k]
    exact lastValue_isSome list k

/-- Witness of C6: the list author X, license GPL (module 8), and the same list followed
by author Y (module 7). -/
theorem Info_last_value_wins_witness :
    (∃ info, (Module.Info fake (Module.mk (some 8)) []).1 = Except.ok info ∧
      info "author" = some "X" ∧ info "license" = some "GPL" ∧ info "alias" = none) ∧
    (∃ info, (Module.Info fake (Module.mk (some 7)) []).1 = Except.ok info ∧
      info "author" = some "Y" ∧ info "license" = some "GPL") := by
  obtain ⟨i8, h8, hv8, _⟩ := Info_last_value_wins fake (Module.mk (some 8)) [] 0
    [("author", "X"), ("license", "GPL")] rfl (by decide)
  obtain ⟨i7, h7, hv7, _⟩ := Info_last_value_wins fake (Module.mk (some 7)) [] 0
    [("author", "X"), ("license", "GPL"), ("author", "Y")] rfl (by decide)
  refine ⟨⟨i8, h8, ?_, ?_, ?_⟩, ⟨i7, h7, ?_, ?_⟩⟩
  · rw [hv8]; decide
  · rw [hv8]; decide
  · rw [hv8]; decide
  · rw [hv7]; decide
  · rw [hv7]; decide

/-- C7 as the code has it: when `kmod_module_get_info` (resp. `kmod_module_get_versions`)
answers a non-negative status, `Info` (resp. `Versions`) returns and has invoked the
free-list operation exactly once, as its last call, on the list it obtained; when the
status is negative, it panics without invoking any free-list operation. -/
theorem Info_Versions_free_list (sub : Subsystem) (m : Module) (log : Log) :
    (0 ≤ (sub.kmod_module_get_info log m.mod).1 →
      (∃ info, (Module.Info sub m log).1 = Except.ok info) ∧
      freeCalls (Module.Info sub m log).2
        = freeCalls log ++ [KmodList.infos (sub.kmod_module_get_info log m.mod).2] ∧
      (Module.Info sub m log).2.getLast?
        = some (Call.kmod_module_info_free_list (sub.kmod_module_get_info log m.mod).2)) ∧
    ((sub.kmod_module_get_info log m.mod).1 < 0 →
      (∃ msg, (Module.Info sub m log).1 = Except.error msg) ∧
      freeCalls (Module.Info sub m log).2 = freeCalls log) ∧
    (0 ≤ (sub.kmod_module_get_versions log m.mod).1 →
      (∃ versions, (Module.Versions sub m log).1 = Except.ok versions) ∧
      freeCalls (Module.Versions sub m log).2
        = freeCalls log ++ [KmodList.versions (sub.kmod_module_get_versions log m.mod).2] ∧
      (Module.Versions sub m log).2.getLast?
        = some (Call.kmod_module_versions_free_list
            (sub.kmod_module_get_versions log m.mod).2)) ∧
    ((sub.kmod_module_get_versions log m.mod).1 < 0 →
      (∃ msg, (Module.Versions sub m log).1 = Except.error msg) ∧
      freeCalls (Module.Versions sub m log).2 = freeCalls log) := by
  refine ⟨?_, ?_, ?_, ?_⟩
  · intro h
    have h2 : ¬ ((sub.kmod_module_get_info log m.mod).1 < 0) := by omega
    refine ⟨?_, ?_, ?_⟩
    · simp [Module.Info, h2]
    · have h3 := freeCalls_Info_loop (sub.kmod_module_get_info log m.mod).2
        (sub.kmod_module_get_info log m.mod).2 (fun _ => none)
        (log ++ [Call.kmod_module_get_info m.mod (sub.kmod_module_get_info log m.mod).1
          (sub.kmod_module_get_info log m.mod).2])
      simp only [freeCalls] at h3
      simp [Module.Info, h2, freeCalls, h3]
    · simp [Module.Info, h2]
  · intro h
    simp [Module.Info, h, goStrerror, freeCalls]
  · intro h
    have h2 : ¬ ((sub.kmod_module_get_versions log m.mod).1 < 0) := by omega
    refine ⟨?_, ?_, ?_⟩
    · simp [Module.Versions, h2]
    · have h3 := freeCalls_Versions_loop (sub.kmod_module_get_versions log m.mod).2
        (sub.kmod_module_get_versions log m.mod).2 []
        (log ++ [Call.kmod_module_get_versions m.mod
          (sub.kmod_module_get_versions log m.mod).1
          (sub.kmod_module_get_versions log m.mod).2])
      simp only [freeCalls] at h3
      simp [Module.Versions, h2, freeCalls, h3]
    · simp [Module.Versions, h2]
  · intro h
    simp [Module.Versions, h, goStrerror, freeCalls]

/-- Witness of C7 as the code has it: a successful `Info` and `Versions` on the fake
subsystem, a failing `Info` and `Versions` on the failing one. -/
theorem Info_Versions_free_list_witness :
    freeCalls (Module.Info fake (Module.mk (some 8)) []).2
      = freeCalls [] ++ [KmodList.infos [("author", "X"), ("license", "GPL")]] ∧
    freeCalls (Module.Versions fake (Module.mk (some 8)) []).2
      = freeCalls [] ++ [KmodList.versions [("printk", 5)]] ∧
    freeCalls (Module.Info fakeFailing (Module.mk (some 8)) []).2 = freeCalls [] ∧
    freeCalls (Module.Versions fakeFailing (Module.mk (some 8)) []).2 = freeCalls [] :=
  ⟨((Info_Versions_free_list fake (Module.mk (some 8)) []).1 (by decide)).2.1,
    ((Info_Versions_free_list fake (Module.mk (some 8)) []).2.2.1 (by decide)).2.1,
    ((Info_Versions_free_list fakeFailing (Module.mk (some 8)) []).2.1 (by decide)).2,
    ((Info_Versions_free_list fakeFailing (Module.mk (some 8)) []).2.2.2 (by decide)).2⟩

/-- Counterexample to C7 as stated: the subsystem answers status -2 after storing a
one-entry list; `Info` and `Versions` panic and no free-list operation was invoked. -/
theorem Info_Versions_free_list_counterexample :
    (fakeFailing.kmod_module_get_info [] (some 8)).1 < 0 ∧
    ¬ ((freeCalls (Module.Info fakeFailing (Module.mk (some 8)) []).2).length = 1) ∧
    (fakeFailing.kmod_module_get_versions [] (some 8)).1 < 0 ∧
    ¬ ((freeCalls (Module.Versions fakeFailing (Module.mk (some 8)) []).2).length = 1) := by
  decide

end kmod
